import Mathlib

/-!
Verification of the Texas Auction aggregation pipeline.

This file gives a shallow embedding of the core of the repository
(`database/database.py`, `scrapers/openai_scraper_fixed_dates.py`) and
proves or refutes the specification's claims about it.

Modelling conventions:
* Python dictionaries/records become structures whose possibly-missing
  keys are `Option` fields; `dict[k]` (which can raise `KeyError`)
  becomes `getItem` in the `Except` monad, `dict.get(k, d)` becomes
  `Option.getD`.
* SQLite rows are structures; tables are lists of rows; `lastrowid`
  is modelled as one more than the largest id in the table.
* Python truthiness of strings/floats (`None`, `""`, `0.0` are falsy)
  is `truthyS` / `truthyQ`.
* Floating point coordinates and prices are modelled as rationals `ℚ`
  where only equality/ordering matters, and the trigonometric distance
  formula itself is modelled over the reals `ℝ`.
* The geocoding provider and the SQL engine are external collaborators:
  a geocoder is a function from the built query string to an outcome,
  and the proximity query's SELECT result is a list of join rows.
-/

namespace TexasAuction

/-! ## Python-style helpers -/

/-- Python truthiness of an optional string (`None` and `""` are falsy). -/
def truthyS : Option String → Bool
  | none => false
  | some s => s != ""

/-- Python truthiness of an optional number (`None` and `0.0` are falsy). -/
def truthyQ : Option ℚ → Bool
  | none => false
  | some q => q != 0

/-- Tests whether `needle` starts the character list `hay`. -/
def startsWithL : List Char → List Char → Bool
  | [], _ => true
  | _ :: _, [] => false
  | a :: as, b :: bs => a == b && startsWithL as bs

/-- Tests whether `needle` occurs somewhere in the character list `hay`. -/
def containsL (nee : List Char) : List Char → Bool
  | [] => nee.isEmpty
  | c :: rest => startsWithL nee (c :: rest) || containsL nee rest

/-- Python's substring test `nee in hay`. -/
def pyIn (nee hay : String) : Bool := containsL nee.data hay.data

/-- Python's `str.lower()`, applied character by character. -/
def pyLower (s : String) : String := ⟨s.data.map Char.toLower⟩

/-! ## Category inference (`OpenAIAuctionScraper._determine_category`)

The same function appears verbatim in `openai_scraper.py` and
`scrapers/openai_scraper_fixed_dates.py`. -/

def vehicleKeywords : List String :=
  ["car", "truck", "van", "suv", "ford", "chevy", "toyota", "honda", "vehicle", "auto"]

def realEstateKeywords : List String :=
  ["real estate", "property", "land", "house", "home", "apartment", "condo"]

def jewelryKeywords : List String :=
  ["jewelry", "watch", "rolex", "gold", "silver", "diamond"]

def equipmentKeywords : List String :=
  ["equipment", "machinery", "tools", "forklift", "tractor"]

/-- Port of `OpenAIAuctionScraper._determine_category`: keyword groups are tested
against the lower-cased concatenation of title and description, in the
order of the `if`/`elif` chain of the source. -/
def determineCategory (title description : String) : String :=
  let text := pyLower (title ++ " " ++ description)
  if vehicleKeywords.any (fun k => pyIn k text) then "vehicles"
  else if realEstateKeywords.any (fun k => pyIn k text) then "real_estate"
  else if jewelryKeywords.any (fun k => pyIn k text) then "jewelry"
  else if equipmentKeywords.any (fun k => pyIn k text) then "equipment"
  else "other"

/-- The ordered keyword groups of the specification (§4.3): vehicles,
real_estate, jewelry, equipment, in that precedence order. -/
def categoryGroups : List (String × List String) :=
  [("vehicles", vehicleKeywords), ("real_estate", realEstateKeywords),
   ("jewelry", jewelryKeywords), ("equipment", equipmentKeywords)]

/-- Modelled from the spec: the category is decided by testing the
lower-cased concatenation of title and description against the fixed
keyword groups in their fixed order; the first matching group wins and
the default is "other". -/
def specInferCategory (title description : String) : String :=
  let text := pyLower (title ++ " " ++ description)
  match categoryGroups.find? (fun g => g.2.any (fun k => pyIn k text)) with
  | some g => g.1
  | none => "other"

/-! ## Distance calculator (`AuctionDatabase._calculate_distance`) -/

/-- The Earth radius constant of `_calculate_distance` (`r = 3956`). -/
def earthRadiusMiles : ℚ := 3956

/-- Python's `math.radians`. -/
noncomputable def toRadians (x : ℝ) : ℝ := x * Real.pi / 180

/-- Port of `AuctionDatabase._calculate_distance`: haversine formula, returning
`c * r` with `r = 3956` miles. -/
noncomputable def calculateDistance (lat1 lon1 lat2 lon2 : ℝ) : ℝ :=
  let lon1r := toRadians lon1
  let lat1r := toRadians lat1
  let lon2r := toRadians lon2
  let lat2r := toRadians lat2
  let dlon := lon2r - lon1r
  let dlat := lat2r - lat1r
  let a := Real.sin (dlat / 2) ^ 2 +
    Real.cos lat1r * Real.cos lat2r * Real.sin (dlon / 2) ^ 2
  let c := 2 * Real.arcsin (Real.sqrt a)
  c * (earthRadiusMiles : ℝ)

/-- Modelled from the spec: the haversine great-circle formula with an
arbitrary Earth radius `r`, written down independently of the source. -/
noncomputable def haversineSpec (r lat1 lon1 lat2 lon2 : ℝ) : ℝ :=
  2 * r * Real.arcsin (Real.sqrt
    (Real.sin ((toRadians lat2 - toRadians lat1) / 2) ^ 2 +
      Real.cos (toRadians lat1) * Real.cos (toRadians lat2) *
        Real.sin ((toRadians lon2 - toRadians lon1) / 2) ^ 2))

/-! ## Data model of `AuctionDatabase` (tables of `create_tables`) -/

/-- A row of `auction_sources`. -/
structure SourceRow where
  sourceId : Nat
  name : String
  websiteUrl : String
  description : String
  logoUrl : String
  isGovernment : Bool
deriving DecidableEq, Repr

/-- A row of `auction_categories`. -/
structure CategoryRow where
  categoryId : Nat
  name : String
  description : String
  parentCategoryId : Option Nat
deriving DecidableEq, Repr

/-- A row of `locations`. -/
structure LocationRow where
  locationId : Nat
  address : String
  city : String
  state : String
  zipCode : String
  latitude : Option ℚ
  longitude : Option ℚ
deriving DecidableEq, Repr

/-- A row of `auctions`. -/
structure AuctionRow where
  auctionId : Nat
  sourceId : Nat
  externalId : String
  title : String
  description : String
  startDate : Option String
  endDate : String
  currentPrice : Option ℚ
  startingPrice : Option ℚ
  locationId : Option Nat
  categoryId : Option Nat
  url : String
  status : String
deriving DecidableEq, Repr

/-- A row of `auction_images`. -/
structure ImageRow where
  auctionId : Nat
  imageUrl : String
  isPrimary : Bool
deriving DecidableEq, Repr

/-- A row of `auction_details`. -/
structure DetailRow where
  auctionId : Nat
  key : String
  value : String
deriving DecidableEq, Repr

/-- The backing store: one list per table. -/
structure DB where
  sources : List SourceRow
  categories : List CategoryRow
  locations : List LocationRow
  auctions : List AuctionRow
  images : List ImageRow
  details : List DetailRow
deriving DecidableEq, Repr

def DB.empty : DB := ⟨[], [], [], [], [], []⟩

/-- Models `cursor.lastrowid` after an INSERT: one past the largest id in use. -/
def freshId (ids : List Nat) : Nat := ids.foldr max 0 + 1

/-! ## Input records of `import_data` (the parsed JSON batch) -/

/-- An entry of the batch's `sources` list. -/
structure SourceIn where
  name : Option String
  websiteUrl : Option String
  description : Option String := none
  logoUrl : Option String := none
  isGovernment : Option Bool := none
deriving DecidableEq, Repr

/-- An entry of the batch's `categories` list. -/
structure CategoryIn where
  name : Option String
  description : Option String := none
  parentCategoryId : Option Nat := none
deriving DecidableEq, Repr

/-- A raw `location` mapping. -/
structure LocationIn where
  address : Option String := none
  city : Option String := none
  state : Option String := none
  zipCode : Option String := none
  latitude : Option ℚ := none
  longitude : Option ℚ := none
deriving DecidableEq, Repr

/-- An entry of an auction's `images` list. -/
structure ImageIn where
  url : Option String
  isPrimary : Option Bool := none
deriving DecidableEq, Repr

/-- An entry of the batch's `auctions` list. -/
structure AuctionIn where
  sourceId : Option Nat
  externalId : Option String := none
  title : Option String
  description : Option String := none
  startDate : Option String := none
  endDate : Option String
  currentPrice : Option ℚ := none
  startingPrice : Option ℚ := none
  location : Option LocationIn := none
  categoryId : Option Nat := none
  url : Option String
  status : Option String := none
  images : Option (List ImageIn) := none
  details : Option (List (String × String)) := none
deriving DecidableEq, Repr

/-- The parsed JSON data file: `sources`, `categories`, `auctions`. -/
structure Batch where
  sources : List SourceIn := []
  categories : List CategoryIn := []
  auctions : List AuctionIn := []
deriving DecidableEq, Repr

/-- A Python exception escaping a record access. -/
inductive PyErr where
  | keyError : String → PyErr
deriving DecidableEq, Repr

/-- Indexing `dict[k]`: raises `KeyError` when the key is missing. -/
def getItem (k : String) : Option α → Except PyErr α
  | some v => .ok v
  | none => .error (.keyError k)

/-! ## Geocoder adapter (`AuctionDatabase.geocode_location`) -/

/-- Outcome of one call to the external geocoding provider:
a location, no result, or a raised
`GeocoderTimedOut`/`GeocoderServiceError`. -/
inductive GeoOutcome where
  | found : ℚ → ℚ → GeoOutcome
  | notFound : GeoOutcome
  | failure : GeoOutcome
deriving DecidableEq, Repr

/-- The external provider, keyed by the built query string. -/
def Geocoder := String → GeoOutcome

/-- The query string `geocode_location` builds from the location parts. -/
def buildLocationStr (loc : LocationIn) : String :=
  let s1 := if truthyS loc.city then loc.city.getD "" ++ ", " else ""
  let s2 := s1 ++ (if truthyS loc.state then loc.state.getD "" ++ " " else "")
  if truthyS loc.zipCode then s2 ++ loc.zipCode.getD "" else s2 ++ "USA"

/-- Port of `AuctionDatabase.geocode_location`: skips the provider when neither
city nor ZIP is truthy, and maps provider no-result and provider errors
alike to `(None, None)`. -/
def geocodeLocation (g : Geocoder) (loc : LocationIn) : Option ℚ × Option ℚ :=
  if !truthyS loc.city && !truthyS loc.zipCode then (none, none)
  else
    match g (buildLocationStr loc) with
    | .found la lo => (some la, some lo)
    | .notFound => (none, none)
    | .failure => (none, none)

/-! ## Ingestion (`AuctionDatabase.import_data`) -/

/-- The `SELECT source_id FROM auction_sources WHERE name = ?` lookup. -/
def findSource (db : DB) (name : String) : Option SourceRow :=
  db.sources.find? (fun r => r.name == name)

/-- The `SELECT category_id FROM auction_categories WHERE name = ?` lookup. -/
def findCategory (db : DB) (name : String) : Option CategoryRow :=
  db.categories.find? (fun r => r.name == name)

/-- The `SELECT location_id FROM locations WHERE city = ? AND state = ?
AND zip_code = ?` lookup. -/
def findLocation (db : DB) (city state zip : String) : Option LocationRow :=
  db.locations.find? (fun r => r.city == city && r.state == state && r.zipCode == zip)

/-- The `SELECT auction_id FROM auctions WHERE source_id = ? AND
external_id = ?` lookup. -/
def findAuction (db : DB) (sid : Nat) (eid : String) : Option AuctionRow :=
  db.auctions.find? (fun r => r.sourceId == sid && r.externalId == eid)

/-- One iteration of the `for source in data.get("sources", [])` loop:
look up by name, insert only when absent. -/
def importSource (db : DB) (s : SourceIn) : Except PyErr DB := do
  let name ← getItem "name" s.name
  match findSource db name with
  | some _ => pure db
  | none => do
      let websiteUrl ← getItem "website_url" s.websiteUrl
      pure { db with sources := db.sources ++ [{
        sourceId := freshId (db.sources.map (·.sourceId)),
        name := name,
        websiteUrl := websiteUrl,
        description := s.description.getD "",
        logoUrl := s.logoUrl.getD "",
        isGovernment := s.isGovernment.getD false }] }

/-- One iteration of the `for category in data.get("categories", [])`
loop: look up by name, insert only when absent. -/
def importCategory (db : DB) (c : CategoryIn) : Except PyErr DB := do
  let name ← getItem "name" c.name
  match findCategory db name with
  | some _ => pure db
  | none =>
      pure { db with categories := db.categories ++ [{
        categoryId := freshId (db.categories.map (·.categoryId)),
        name := name,
        description := c.description.getD "",
        parentCategoryId := c.parentCategoryId }] }

/-- The geocoding step of the auction loop: when the raw record carries
no coordinate keys, call the geocoder and keep a truthy answer. -/
def geocodedLoc (g : Geocoder) (loc0 : LocationIn) : LocationIn :=
  if loc0.latitude = none ∨ loc0.longitude = none then
    let r := geocodeLocation g loc0
    if truthyQ r.1 && truthyQ r.2 then
      { loc0 with latitude := r.1, longitude := r.2 }
    else loc0
  else loc0

/-- The location block of the auction loop: geocode when the raw record
carries no coordinate keys, then look up an existing `locations` row by
(city, state, zip_code) before inserting a new one. -/
def resolveLocation (g : Geocoder) (db : DB) (a : AuctionIn) : DB × Option Nat :=
  match a.location with
  | none => (db, none)
  | some loc0 =>
      let loc := geocodedLoc g loc0
      let city := loc.city.getD ""
      let state := loc.state.getD "TX"
      let zip := loc.zipCode.getD ""
      match findLocation db city state zip with
      | some r => (db, some r.locationId)
      | none =>
          let lid := freshId (db.locations.map (·.locationId))
          ({ db with locations := db.locations ++ [{
              locationId := lid,
              address := loc.address.getD "",
              city := city, state := state, zipCode := zip,
              latitude := loc.latitude, longitude := loc.longitude }] },
            some lid)

/-- The `for image in auction["images"]` loop: rows are appended
unconditionally. -/
def appendImages (aid : Nat) (db : DB) : List ImageIn → Except PyErr DB
  | [] => pure db
  | img :: rest => do
      let u ← getItem "url" img.url
      appendImages aid
        { db with images := db.images ++ [⟨aid, u, img.isPrimary.getD false⟩] } rest

/-- The `for key, value in auction["details"].items()` loop. -/
def appendDetails (aid : Nat) (db : DB) (ds : List (String × String)) : DB :=
  { db with details := db.details ++ ds.map (fun kv => ⟨aid, kv.1, kv.2⟩) }

/-- The detail part of the image/detail tail. -/
def applyDetails (aid : Nat) (db : DB) (a : AuctionIn) : DB :=
  match a.details with
  | none => db
  | some ds => appendDetails aid db ds

/-- The image/detail tail of one auction iteration. -/
def appendImagesDetails (aid : Nat) (db : DB) (a : AuctionIn) : Except PyErr DB :=
  match a.images with
  | none => pure (applyDetails aid db a)
  | some imgs => do
      let db1 ← appendImages aid db imgs
      pure (applyDetails aid db1 a)

/-- The row written by the UPDATE branch: every mutable field is set
from the record; `auction_id`, `source_id`, `external_id` are kept. -/
def updatedAuctionRow (a : AuctionIn) (title endDate url : String)
    (lid : Option Nat) (row : AuctionRow) : AuctionRow :=
  { row with
    title := title,
    description := a.description.getD "",
    startDate := a.startDate,
    endDate := endDate,
    currentPrice := a.currentPrice,
    startingPrice := a.startingPrice,
    locationId := lid,
    categoryId := a.categoryId,
    url := url,
    status := a.status.getD "active" }

/-- The row written by the INSERT branch. -/
def newAuctionRow (a : AuctionIn) (aid sid : Nat) (eid title endDate url : String)
    (lid : Option Nat) : AuctionRow :=
  { auctionId := aid,
    sourceId := sid,
    externalId := eid,
    title := title,
    description := a.description.getD "",
    startDate := a.startDate,
    endDate := endDate,
    currentPrice := a.currentPrice,
    startingPrice := a.startingPrice,
    locationId := lid,
    categoryId := a.categoryId,
    url := url,
    status := a.status.getD "active" }

/-- The `UPDATE auctions SET ... WHERE auction_id = ?` statement: replaces the rows
bearing the found row's id. -/
def applyUpdate (db : DB) (rowId : Nat) (upd : AuctionRow) : DB :=
  { db with auctions := db.auctions.map (fun r => if r.auctionId = rowId then upd else r) }

/-- The `INSERT INTO auctions ...` statement: appends the new row. -/
def applyInsert (db : DB) (row : AuctionRow) : DB :=
  { db with auctions := db.auctions ++ [row] }

/-- One iteration of the `for auction in data.get("auctions", [])` loop:
resolve the location, look up the auction by
`(source_id, external_id or "")`, then UPDATE in place or INSERT, and
append images/details.  Returns the store and the `imported_count`
increment (1 for an insert, 0 for an update). -/
def processAuction (g : Geocoder) (db : DB) (a : AuctionIn) :
    Except PyErr (DB × Nat) := do
  let r := resolveLocation g db a
  let sourceId ← getItem "source_id" a.sourceId
  let externalId := a.externalId.getD ""
  let title ← getItem "title" a.title
  let endDate ← getItem "end_date" a.endDate
  let url ← getItem "url" a.url
  match findAuction r.1 sourceId externalId with
  | some row =>
      let db2 := applyUpdate r.1 row.auctionId (updatedAuctionRow a title endDate url r.2 row)
      let db3 ← appendImagesDetails row.auctionId db2 a
      pure (db3, 0)
  | none =>
      let aid := freshId (r.1.auctions.map (·.auctionId))
      let db2 := applyInsert r.1 (newAuctionRow a aid sourceId externalId title endDate url r.2)
      let db3 ← appendImagesDetails aid db2 a
      pure (db3, 1)

/-- The sources/categories phases iterate a fallible step over a list. -/
def foldE (f : DB → β → Except PyErr DB) : DB → List β → Except PyErr DB
  | db, [] => pure db
  | db, x :: xs => do foldE f (← f db x) xs

/-- The auction phase, accumulating `imported_count`. -/
def processAuctions (g : Geocoder) : DB × Nat → List AuctionIn → Except PyErr (DB × Nat)
  | s, [] => pure s
  | (db, n), a :: rest => do
      let (db', k) ← processAuction g db a
      processAuctions g (db', n + k) rest

/-- The body of `import_data`: sources, then categories, then auctions. -/
def importDataCore (g : Geocoder) (db : DB) (b : Batch) : Except PyErr (DB × Nat) := do
  let db ← foldE importSource db b.sources
  let db ← foldE importCategory db b.categories
  processAuctions g (db, 0) b.auctions

/-- Port of `AuctionDatabase.import_data` on an already-parsed batch: on success
the transaction commits and the new-auction count is returned; an
uncaught exception (a `KeyError` from a record) aborts the function, the
connection is closed without commit, and the store rolls back to its
prior state. -/
def importData (g : Geocoder) (db : DB) (b : Batch) : DB × Except PyErr Nat :=
  match importDataCore g db b with
  | .ok (db', n) => (db', .ok n)
  | .error e => (db, .error e)

/-! ## Proximity query (`AuctionDatabase.get_auctions_by_proximity`)

The SELECT joins `auctions` with `auction_sources`, `auction_categories`
and `locations` and is answered by the external SQL engine; one row of
its result is a `JoinRow`, and the engine's answer (the rows with
`status = 'active'`, `end_date > CURRENT_TIMESTAMP`, and non-NULL
coordinates) is a list parameter.  Distances are computed in floating
point by `_calculate_distance`; for the list-processing part of the
query that computation is an opaque function parameter `dist`, and the
attached `auction["distance"]` value lives in `WithTop ℚ` whose `⊤` is
Python's `float('inf')`. -/

/-- A row of the proximity query's SELECT result. -/
structure JoinRow where
  auctionId : Nat
  title : String
  sourceName : Option String
  categoryName : Option String
  city : Option String
  state : Option String
  zipCode : Option String
  latitude : Option ℚ
  longitude : Option ℚ
  status : String
  endDate : String
deriving DecidableEq, Repr

/-- The distance-attaching step of the loop: Python-truthy coordinates
get a computed distance, a coordinate that is `NULL`-or-`0.0` gets
`float('inf')`. -/
def attachDistance (dist : ℚ → ℚ → ℚ → ℚ → ℚ) (ula ulo : ℚ) (r : JoinRow) :
    JoinRow × WithTop ℚ :=
  if truthyQ r.latitude && truthyQ r.longitude then
    (r, (dist ula ulo (r.latitude.getD 0) (r.longitude.getD 0) : ℚ))
  else
    (r, ⊤)

/-- Comparison used by `auctions.sort(key=lambda x: x["distance"])`. -/
def distLE (x y : JoinRow × WithTop ℚ) : Prop := x.2 ≤ y.2

instance : DecidableRel distLE := fun x y => inferInstanceAs (Decidable (x.2 ≤ y.2))

instance : IsTotal (JoinRow × WithTop ℚ) distLE := ⟨fun a b => le_total a.2 b.2⟩

instance : IsTrans (JoinRow × WithTop ℚ) distLE := ⟨fun _ _ _ => le_trans⟩

/-- The `auction["distance"]` computation for every fetched row. -/
def proximityWithD (dist : ℚ → ℚ → ℚ → ℚ → ℚ) (ula ulo : ℚ)
    (rows : List JoinRow) : List (JoinRow × WithTop ℚ) :=
  rows.map (attachDistance dist ula ulo)

/-- The `[a for a in auctions if a["distance"] <= max_distance]` filter. -/
def proximityKept (dist : ℚ → ℚ → ℚ → ℚ → ℚ) (ula ulo maxD : ℚ)
    (rows : List JoinRow) : List (JoinRow × WithTop ℚ) :=
  (proximityWithD dist ula ulo rows).filter (fun rd => rd.2 ≤ (maxD : WithTop ℚ))

/-- The `auctions.sort(key=lambda x: x["distance"])` step.  Python's
sort is stable; a stable sort by a total preorder has a unique result,
here realised by insertion sort. -/
def proximitySorted (dist : ℚ → ℚ → ℚ → ℚ → ℚ) (ula ulo maxD : ℚ)
    (rows : List JoinRow) : List (JoinRow × WithTop ℚ) :=
  List.insertionSort distLE (proximityKept dist ula ulo maxD rows)

/-- Filter, sort and the `auctions[offset:offset+limit]` slice. -/
def proximityPipeline (dist : ℚ → ℚ → ℚ → ℚ → ℚ) (ula ulo maxD : ℚ)
    (limit offset : Nat) (rows : List JoinRow) : List (JoinRow × WithTop ℚ) :=
  ((proximitySorted dist ula ulo maxD rows).drop offset).take limit

/-- Port of `AuctionDatabase.get_auctions_by_proximity`: geocode the ZIP (as the
location `{"zip_code": zip_code}`); when either coordinate is falsy,
return `[]` without touching the store; otherwise run the pipeline on
the store's join rows.  The boolean records whether the store was
connected to and queried. -/
def getAuctionsByProximity (g : Geocoder) (dist : ℚ → ℚ → ℚ → ℚ → ℚ)
    (rows : List JoinRow) (zipCode : String) (maxD : ℚ) (limit offset : Nat) :
    List (JoinRow × WithTop ℚ) × Bool :=
  let u := geocodeLocation g { zipCode := some zipCode }
  if !(truthyQ u.1 && truthyQ u.2) then ([], false)
  else (proximityPipeline dist (u.1.getD 0) (u.2.getD 0) maxD limit offset rows, true)

/-! ## End-date normalization (`scrapers/openai_scraper_fixed_dates.py`)

Datetimes are modelled as integer timestamps in seconds (the code's
`.replace(microsecond=0)` makes the relative branches second-granular);
`datetime.isoformat()` is an injective serialization into non-empty
strings.  String parsing primitives (`datetime.strptime`, the two
relative-time regexes, the timezone-stripping `re.sub`, and
`dateutil.parser.parse`, whose failure is a raised exception) are
environment parameters. -/

/-- Serialization `datetime.isoformat()` of a timestamp: some non-empty string. -/
def pyIsoformat (t : Int) : String := "dt:" ++ toString t

/-- The `datetime.strptime` format list of `_parse_date`. -/
def dateFormats : List String :=
  ["%m/%d/%Y %I:%M %p", "%m/%d/%Y", "%Y-%m-%d %H:%M:%S", "%Y-%m-%d",
   "%B %d, %Y %I:%M %p", "%B %d, %Y"]

/-- The external date-parsing primitives. -/
structure DateEnv where
  strptime : String → String → Option Int
  dateutil : String → Option Int
  relDaysHours : String → Option (Nat × Nat)
  relHoursMins : String → Option (Nat × Nat)
  stripTz : String → String

/-- The `for fmt in formats: try strptime` loop: first success wins. -/
def tryFormats (env : DateEnv) (s : String) : List String → Option Int
  | [] => none
  | f :: fs =>
      match env.strptime f s with
      | some t => some t
      | none => tryFormats env s fs

/-- Seven days in seconds (`timedelta(days=7)`). -/
def sevenDays : Int := 7 * 86400

/-- Port of `OpenAIAuctionScraper._parse_date` of the fixed-dates scraper: every
branch, including the final `except`, produces an ISO string; an absent
or unparseable date becomes `now + 7 days`. -/
def parseDateFD (env : DateEnv) (now : Int) (dateStr : String) : String :=
  if dateStr == "" then pyIsoformat (now + sevenDays)
  else
    match env.relDaysHours dateStr with
    | some dh => pyIsoformat (now + dh.1 * 86400 + dh.2 * 3600)
    | none =>
        match env.relHoursMins dateStr with
        | some hm => pyIsoformat (now + hm.1 * 3600 + hm.2 * 60)
        | none =>
            let s := env.stripTz dateStr
            match tryFormats env s dateFormats with
            | some t => pyIsoformat t
            | none =>
                match env.dateutil s with
                | some t => pyIsoformat t
                | none => pyIsoformat (now + sevenDays)

/-- The end-date handling of `_extract_auctions_with_openai`: a truthy
raw value is parsed, anything else becomes the default horizon. -/
def extractEndDate (env : DateEnv) (now : Int) (raw : Option String) : String :=
  match raw with
  | some s => if s != "" then parseDateFD env now s else pyIsoformat (now + sevenDays)
  | none => pyIsoformat (now + sevenDays)

/-- The `scrape_page` backstop: `if not auction.get("end_date")`, set
the default horizon. -/
def scrapePageEndDate (now : Int) (d : String) : String :=
  if d == "" then pyIsoformat (now + sevenDays) else d

/-- The end date an auction record carries after the fixed-dates
scraper's extraction post-processing and the `scrape_page` loop. -/
def normalizeEndDate (env : DateEnv) (now : Int) (raw : Option String) : String :=
  scrapePageEndDate now (extractEndDate env now raw)

/-! ## Well-formedness and presence predicates for the ingestion claims -/

/-- The auction table's primary-key invariant: distinct rows carry
distinct `auction_id`s (enforced by the schema's SERIAL PRIMARY KEY). -/
def DB.auctionIdsNodup (db : DB) : Prop := (db.auctions.map (·.auctionId)).Nodup

/-- A batch source record carries the keys `import_data` reads directly. -/
def SourceIn.wf (s : SourceIn) : Prop := s.name ≠ none ∧ s.websiteUrl ≠ none

/-- A batch category record carries its `name` key. -/
def CategoryIn.wf (c : CategoryIn) : Prop := c.name ≠ none

/-- A batch auction record carries the four keys `import_data` reads
directly: `source_id`, `title`, `end_date`, `url`. -/
def AuctionIn.wfReq (a : AuctionIn) : Prop :=
  a.sourceId ≠ none ∧ a.title ≠ none ∧ a.endDate ≠ none ∧ a.url ≠ none

/-- A fully well-formed batch auction record (its images carry `url`). -/
def AuctionIn.wf (a : AuctionIn) : Prop :=
  a.wfReq ∧ ∀ img ∈ a.images.getD [], img.url ≠ none

/-- A batch whose records carry every directly-read key. -/
def Batch.wf (b : Batch) : Prop :=
  (∀ s ∈ b.sources, s.wf) ∧ (∀ c ∈ b.categories, c.wf) ∧ (∀ a ∈ b.auctions, a.wf)

/-- The source row for this record's natural key (its name) exists. -/
def sourcePresent (db : DB) (s : SourceIn) : Prop :=
  ∀ nm, s.name = some nm → (findSource db nm).isSome = true

/-- The category row for this record's natural key (its name) exists. -/
def categoryPresent (db : DB) (c : CategoryIn) : Prop :=
  ∀ nm, c.name = some nm → (findCategory db nm).isSome = true

/-- The (city, state, zip) lookup key of a record's location, which the
geocoding step never alters. -/
def AuctionIn.locKey (a : AuctionIn) : Option (String × String × String) :=
  a.location.map (fun loc => (loc.city.getD "", loc.state.getD "TX", loc.zipCode.getD ""))

/-- The location row for this record's lookup key exists. -/
def locPresent (db : DB) (a : AuctionIn) : Prop :=
  ∀ k, a.locKey = some k → (findLocation db k.1 k.2.1 k.2.2).isSome = true

/-- The auction row for this record's natural key
`(source_id, external_id or "")` exists. -/
def aucPresent (db : DB) (a : AuctionIn) : Prop :=
  ∀ sid, a.sourceId = some sid →
    (findAuction db sid (a.externalId.getD "")).isSome = true

/-! ## Concrete records for witnesses and counterexamples -/

/-- A provider that never finds anything (network-free runs). -/
def cGeo : Geocoder := fun _ => GeoOutcome.notFound

/-- A fixed Texan row sitting at a chosen latitude, used as a concrete
stored auction in examples. -/
def exampleRow (la : ℚ) : JoinRow :=
  ⟨1, "item", none, none, some "Austin", some "TX", some "78701",
    some la, some 1, "active", "2099-01-01"⟩

def cSource : SourceIn :=
  { name := some "GovDeals - Texas", websiteUrl := some "https://www.govdeals.com" }

def cCategory : CategoryIn := { name := some "vehicles" }

def cAuction1 : AuctionIn :=
  { sourceId := some 1, externalId := some "gd-1", title := some "Ford F150",
    endDate := some "2025-03-19T10:00:00", url := some "http://x/1",
    location := some { city := some "Austin", zipCode := some "78701" } }

/-- A record with no title: reading `auction["title"]` raises KeyError. -/
def cAuctionBad : AuctionIn :=
  { sourceId := some 1, externalId := some "gd-2", title := none,
    endDate := some "2025-03-20T10:00:00", url := some "http://x/2" }

def cAuction2 : AuctionIn :=
  { sourceId := some 1, externalId := some "gd-3", title := some "Trailer",
    endDate := some "2025-03-21T10:00:00", url := some "http://x/3" }

/-- A well-formed one-source, one-category, one-auction batch. -/
def cBatch : Batch :=
  { sources := [cSource], categories := [cCategory], auctions := [cAuction1] }

/-- Ten-minus-seven records, the middle one with no title. -/
def cBadBatch : Batch := { auctions := [cAuction1, cAuctionBad, cAuction2] }

/-- Two distinct records (different titles and urls) with no
`external_id`, from the same source. -/
def cNoExtA : AuctionIn :=
  { sourceId := some 1, title := some "Estate lot A",
    endDate := some "2025-03-19T10:00:00", url := some "http://x/a" }

def cNoExtB : AuctionIn :=
  { sourceId := some 1, title := some "Estate lot B",
    endDate := some "2025-03-19T11:00:00", url := some "http://x/b" }

def cPairBatch : Batch := { auctions := [cNoExtA, cNoExtB] }

/-! ## Claim theorems: distance calculator -/

/-- Squared sine of a half-difference is symmetric in its endpoints. -/
theorem sin_sq_half_sub_comm (x y : ℝ) :
    Real.sin ((x - y) / 2) ^ 2 = Real.sin ((y - x) / 2) ^ 2 := by
  rw [show (x - y) / 2 = -((y - x) / 2) by ring, Real.sin_neg, neg_sq]

/-- C7: `_calculate_distance` is symmetric in its two coordinate pairs,
and the distance from a point to itself is exactly 0. -/
theorem calculateDistance_symm_zero :
    (∀ lat1 lon1 lat2 lon2 : ℝ,
      calculateDistance lat1 lon1 lat2 lon2 = calculateDistance lat2 lon2 lat1 lon1) ∧
    (∀ lat lon : ℝ, calculateDistance lat lon lat lon = 0) := by
  constructor
  · intro lat1 lon1 lat2 lon2
    simp only [calculateDistance]
    rw [sin_sq_half_sub_comm (toRadians lat2) (toRadians lat1),
      sin_sq_half_sub_comm (toRadians lon2) (toRadians lon1),
      mul_comm (Real.cos (toRadians lat1)) (Real.cos (toRadians lat2))]
  · intro lat lon
    simp [calculateDistance]

/-- C6 counterexample: the Earth radius the code uses is 3956 miles,
which is not approximately 3958.8 (it differs by 2.8 miles, more than
any rounding of the stated one-decimal value allows). -/
theorem earthRadius_is_3956_not_3958_8 :
    earthRadiusMiles = 3956 ∧ ¬ |earthRadiusMiles - 3958.8| < 1 := by
  constructor
  · rfl
  · norm_num [earthRadiusMiles]
    rw [abs_of_nonneg (by norm_num : (0:ℚ) ≤ 14 / 5)]
    norm_num

/-- C6 amended: `_calculate_distance` implements the haversine
great-circle formula with Earth radius `earthRadiusMiles = 3956` miles,
the single radius constant of the codebase's only distance computation. -/
theorem calculateDistance_haversine_radius :
    (∀ lat1 lon1 lat2 lon2 : ℝ,
      calculateDistance lat1 lon1 lat2 lon2 =
        haversineSpec ((earthRadiusMiles : ℝ)) lat1 lon1 lat2 lon2) ∧
    earthRadiusMiles = 3956 := by
  refine ⟨fun lat1 lon1 lat2 lon2 => ?_, rfl⟩
  simp only [calculateDistance, haversineSpec]
  ring

/-! ## Claim theorems: category inference -/

/-- C9: `_determine_category` agrees with the spec's ordered-group
description, and a text containing both "truck" and "tractor" is a
vehicle, while "tractor" alone is equipment. -/
theorem determineCategory_is_spec :
    (∀ title description : String,
      determineCategory title description = specInferCategory title description) ∧
    determineCategory "Truck tractor" "" = "vehicles" ∧
    determineCategory "tractor" "" = "equipment" := by
  refine ⟨fun t d => ?_, by decide, by decide⟩
  simp only [determineCategory, specInferCategory, categoryGroups]
  cases h1 : vehicleKeywords.any (fun k => pyIn k (pyLower (t ++ " " ++ d))) <;>
    cases h2 : realEstateKeywords.any (fun k => pyIn k (pyLower (t ++ " " ++ d))) <;>
      cases h3 : jewelryKeywords.any (fun k => pyIn k (pyLower (t ++ " " ++ d))) <;>
        cases h4 : equipmentKeywords.any (fun k => pyIn k (pyLower (t ++ " " ++ d))) <;>
          simp [List.find?, h1, h2, h3, h4]

/-! ## Claim theorems: end-date normalization -/

/-- A serialized datetime is never the empty string. -/
theorem pyIsoformat_ne_empty (t : Int) : pyIsoformat t ≠ "" := by
  intro h
  have hd := congrArg String.data h
  simp [pyIsoformat] at hd

/-- Every branch of `_parse_date` returns a serialized datetime. -/
theorem parseDateFD_eq_isoformat (env : DateEnv) (now : Int) (s : String) :
    ∃ t, parseDateFD env now s = pyIsoformat t := by
  unfold parseDateFD
  dsimp only
  repeat' split
  all_goals exact ⟨_, rfl⟩

/-- The `scrape_page` backstop passes a serialized datetime through. -/
theorem scrapePageEndDate_isoformat (now t : Int) :
    scrapePageEndDate now (pyIsoformat t) = pyIsoformat t := by
  simp [scrapePageEndDate, pyIsoformat_ne_empty t]

/-- If every format fails, the `strptime` loop fails. -/
theorem tryFormats_none (env : DateEnv) (x : String) :
    ∀ fs : List String, (∀ f ∈ fs, env.strptime f x = none) →
      tryFormats env x fs = none := by
  intro fs
  induction fs with
  | nil => intro _; rfl
  | cons f fs ih =>
      intro h
      unfold tryFormats
      rw [h f (by simp)]
      exact ih (fun g hg => h g (by simp [hg]))

/-- The extraction step always yields a serialized datetime. -/
theorem extractEndDate_eq_isoformat (env : DateEnv) (now : Int) (raw : Option String) :
    ∃ t, extractEndDate env now raw = pyIsoformat t := by
  cases raw with
  | none => exact ⟨_, rfl⟩
  | some s =>
      by_cases hs : s = ""
      · subst hs
        exact ⟨_, rfl⟩
      · have hx : extractEndDate env now (some s) = parseDateFD env now s := by
          simp [extractEndDate, hs]
        rw [hx]
        exact parseDateFD_eq_isoformat env now s

/-- C8: the normalized end date is never absent; a missing raw end date,
and a raw end date that fails every parse attempt, both become the
default horizon `now + 7 days`. -/
theorem normalizeEndDate_total_default :
    ∀ (env : DateEnv) (now : Int) (raw : Option String),
      normalizeEndDate env now raw ≠ "" ∧
      ((raw = none ∨ raw = some "") →
        normalizeEndDate env now raw = pyIsoformat (now + sevenDays)) ∧
      (∀ s, raw = some s →
        env.relDaysHours s = none → env.relHoursMins s = none →
        (∀ f ∈ dateFormats, env.strptime f (env.stripTz s) = none) →
        env.dateutil (env.stripTz s) = none →
        normalizeEndDate env now raw = pyIsoformat (now + sevenDays)) := by
  intro env now raw
  refine ⟨?_, ?_, ?_⟩
  · obtain ⟨t, ht⟩ := extractEndDate_eq_isoformat env now raw
    unfold normalizeEndDate
    rw [ht, scrapePageEndDate_isoformat]
    exact pyIsoformat_ne_empty t
  · rintro (rfl | rfl)
    · unfold normalizeEndDate
      rw [show extractEndDate env now none = pyIsoformat (now + sevenDays) from rfl,
        scrapePageEndDate_isoformat]
    · unfold normalizeEndDate
      rw [show extractEndDate env now (some "") = pyIsoformat (now + sevenDays) from rfl,
        scrapePageEndDate_isoformat]
  · intro s hs h1 h2 h3 h4
    subst hs
    by_cases hempty : s = ""
    · subst hempty
      unfold normalizeEndDate
      rw [show extractEndDate env now (some "") = pyIsoformat (now + sevenDays) from rfl,
        scrapePageEndDate_isoformat]
    · have hbe : (s == "") = false := by simpa using hempty
      have hmain := tryFormats_none env (env.stripTz s) dateFormats h3
      have hp : parseDateFD env now s = pyIsoformat (now + sevenDays) := by
        simp [parseDateFD, hbe, h1, h2, hmain, h4]
      have hx : extractEndDate env now (some s) = parseDateFD env now s := by
        simp [extractEndDate, hempty]
      unfold normalizeEndDate
      rw [hx, hp, scrapePageEndDate_isoformat]

/-- C8 witness: a concrete environment in which every parse attempt
fails still produces the default-horizon end date, never an absent one. -/
theorem normalizeEndDate_total_default_witness :
    normalizeEndDate ⟨fun _ _ => none, fun _ => none, fun _ => none, fun _ => none, id⟩
        0 (some "not a date") = pyIsoformat (0 + sevenDays) ∧
    normalizeEndDate ⟨fun _ _ => none, fun _ => none, fun _ => none, fun _ => none, id⟩
        0 (some "not a date") ≠ "" := by
  have h := normalizeEndDate_total_default
    ⟨fun _ _ => none, fun _ => none, fun _ => none, fun _ => none, id⟩ 0 (some "not a date")
  exact ⟨h.2.2 "not a date" rfl rfl rfl (fun f _ => rfl) rfl, h.1⟩

/-! ## Claim theorems: proximity query -/

/-- The attached pair keeps the row in its first component. -/
theorem attachDistance_fst (dist : ℚ → ℚ → ℚ → ℚ → ℚ) (ula ulo : ℚ) (r : JoinRow) :
    (attachDistance dist ula ulo r).1 = r := by
  unfold attachDistance
  split <;> rfl

/-- A row with a Python-falsy coordinate is assigned infinite distance. -/
theorem attachDistance_top (dist : ℚ → ℚ → ℚ → ℚ → ℚ) (ula ulo : ℚ) (r : JoinRow)
    (h : r.latitude = some 0 ∨ r.longitude = some 0) :
    attachDistance dist ula ulo r = (r, ⊤) := by
  unfold attachDistance
  rcases h with h | h <;> rw [h] <;> simp [truthyQ]

/-- Insertion via `orderedInsert` keeps the elements at any fixed distance in order:
an inserted element lands in front of exactly the equal-or-farther ones. -/
theorem filter_orderedInsert_dist (v : WithTop ℚ) (a : JoinRow × WithTop ℚ) :
    ∀ l : List (JoinRow × WithTop ℚ),
      (List.orderedInsert distLE a l).filter (fun x => x.2 == v) =
        if a.2 = v then a :: l.filter (fun x => x.2 == v)
        else l.filter (fun x => x.2 == v) := by
  intro l
  induction l with
  | nil =>
      by_cases hav : a.2 = v <;> simp [List.orderedInsert, List.filter_cons, hav]
  | cons b l ih =>
      by_cases hab : distLE a b
      · by_cases hav : a.2 = v <;>
          simp [List.orderedInsert, hab, List.filter_cons, hav]
      · have hab' : ¬ a.2 ≤ b.2 := hab
        have hlt : b.2 < a.2 := lt_of_not_le hab'
        by_cases hav : a.2 = v
        · have hbne : ¬ b.2 = v := by
            intro hbv
            rw [hav, hbv] at hlt
            exact lt_irrefl v hlt
          simp [List.orderedInsert, hab, List.filter_cons, hav, hbne, ih]
        · simp [List.orderedInsert, hab, List.filter_cons, hav, ih]

/-- Stability of the modelled sort: restricting the sorted list to any
single distance value gives back the pre-sort (insertion) order. -/
theorem filter_insertionSort_dist (v : WithTop ℚ) :
    ∀ l : List (JoinRow × WithTop ℚ),
      (List.insertionSort distLE l).filter (fun x => x.2 == v) =
        l.filter (fun x => x.2 == v) := by
  intro l
  induction l with
  | nil => rfl
  | cons a l ih =>
      rw [List.insertionSort, filter_orderedInsert_dist, ih]
      by_cases hav : a.2 = v <;> simp [List.filter_cons, hav]

/-- C4: the proximity pipeline keeps exactly the rows whose computed
distance is at most `max_distance`, sorts them ascending by distance
with ties kept in insertion order, slices only after sorting, and on
rows at distances [5, 50, 150] with `max_distance = 100` returns
exactly the first two in ascending order. -/
theorem proximityPipeline_spec :
    (∀ (dist : ℚ → ℚ → ℚ → ℚ → ℚ) (ula ulo maxD : ℚ) (rows : List JoinRow)
        (rd : JoinRow × WithTop ℚ),
      rd ∈ proximitySorted dist ula ulo maxD rows ↔
        rd ∈ proximityWithD dist ula ulo rows ∧ rd.2 ≤ (maxD : WithTop ℚ)) ∧
    (∀ (dist : ℚ → ℚ → ℚ → ℚ → ℚ) (ula ulo maxD : ℚ) (rows : List JoinRow),
      List.Sorted distLE (proximitySorted dist ula ulo maxD rows)) ∧
    (∀ (dist : ℚ → ℚ → ℚ → ℚ → ℚ) (ula ulo maxD : ℚ) (rows : List JoinRow)
        (v : WithTop ℚ),
      (proximitySorted dist ula ulo maxD rows).filter (fun x => x.2 == v) =
        (proximityKept dist ula ulo maxD rows).filter (fun x => x.2 == v)) ∧
    (∀ (dist : ℚ → ℚ → ℚ → ℚ → ℚ) (ula ulo maxD : ℚ) (limit offset : Nat)
        (rows : List JoinRow),
      proximityPipeline dist ula ulo maxD limit offset rows =
        ((proximitySorted dist ula ulo maxD rows).drop offset).take limit) ∧
    proximityPipeline (fun _ _ la _ => la) 0 0 100 20 0
        [exampleRow 5, exampleRow 50, exampleRow 150] =
      [(exampleRow 5, ((5 : ℚ) : WithTop ℚ)), (exampleRow 50, ((50 : ℚ) : WithTop ℚ))] := by
  refine ⟨?_, ?_, ?_, ?_, ?_⟩
  · intro dist ula ulo maxD rows rd
    rw [proximitySorted, (List.perm_insertionSort distLE _).mem_iff, proximityKept,
      List.mem_filter]
    simp
  · intro dist ula ulo maxD rows
    exact List.sorted_insertionSort distLE _
  · intro dist ula ulo maxD rows v
    exact filter_insertionSort_dist v _
  · intro dist ula ulo maxD limit offset rows
    rfl
  · decide

/-- C5: when the geocoding provider returns no result, or raises a
timeout/service error, the proximity query returns the empty list and
never connects to or queries the backing store. -/
theorem proximity_geocode_failure :
    ∀ (g : Geocoder) (dist : ℚ → ℚ → ℚ → ℚ → ℚ) (rows : List JoinRow)
      (zip : String) (maxD : ℚ) (limit offset : Nat),
      (g (buildLocationStr { zipCode := some zip }) = .notFound ∨
        g (buildLocationStr { zipCode := some zip }) = .failure) →
      getAuctionsByProximity g dist rows zip maxD limit offset = ([], false) := by
  intro g dist rows zip maxD limit offset h
  by_cases hz : zip = ""
  · subst hz
    rfl
  · rcases h with h | h <;>
      simp [getAuctionsByProximity, geocodeLocation, h, truthyS, truthyQ, hz]

/-- C5 witness: a provider with no answer for any query yields the
empty result without a store query. -/
theorem proximity_geocode_failure_witness :
    getAuctionsByProximity (fun _ => GeoOutcome.notFound) (fun _ _ _ _ => 0)
      [exampleRow 5] "78232" 100 20 0 = ([], false) :=
  proximity_geocode_failure _ _ _ _ _ _ _ (Or.inl rfl)

/-- C10: a geocoded anchor with latitude or longitude exactly 0 makes
the whole query return empty without querying the store, and a stored
row with latitude or longitude exactly 0 receives infinite distance and
is excluded from every result. -/
theorem proximity_zero_treated_as_missing :
    (∀ (g : Geocoder) (dist : ℚ → ℚ → ℚ → ℚ → ℚ) (rows : List JoinRow)
        (zip : String) (maxD : ℚ) (limit offset : Nat) (la lo : ℚ),
      g (buildLocationStr { zipCode := some zip }) = .found la lo →
      la = 0 ∨ lo = 0 →
      getAuctionsByProximity g dist rows zip maxD limit offset = ([], false)) ∧
    (∀ (dist : ℚ → ℚ → ℚ → ℚ → ℚ) (ula ulo maxD : ℚ) (limit offset : Nat)
        (rows : List JoinRow) (r : JoinRow) (d : WithTop ℚ),
      r.latitude = some 0 ∨ r.longitude = some 0 →
      (r, d) ∉ proximityPipeline dist ula ulo maxD limit offset rows) := by
  constructor
  · intro g dist rows zip maxD limit offset la lo hg h0
    by_cases hz : zip = ""
    · subst hz
      rfl
    · rcases h0 with rfl | rfl <;>
        simp [getAuctionsByProximity, geocodeLocation, hg, truthyS, truthyQ, hz]
  · intro dist ula ulo maxD limit offset rows r d h0 hmem
    have h1 : (r, d) ∈ proximitySorted dist ula ulo maxD rows :=
      List.mem_of_mem_drop (List.mem_of_mem_take hmem)
    have h2 : (r, d) ∈ proximityKept dist ula ulo maxD rows :=
      (List.perm_insertionSort distLE _).mem_iff.mp h1
    have h3 := List.mem_filter.mp h2
    obtain ⟨r0, hr0, heq⟩ := List.mem_map.mp h3.1
    have hr : r0 = r := by
      have := attachDistance_fst dist ula ulo r0
      rw [heq] at this
      exact this.symm
    subst hr
    rw [attachDistance_top dist ula ulo r0 h0] at heq
    have hd : d = ⊤ := by
      have h5 := congrArg Prod.snd heq
      simpa using h5.symm
    subst hd
    have := of_decide_eq_true h3.2
    exact WithTop.not_top_le_coe maxD this

/-- C10 witness: a provider answering latitude 0 yields the empty
result, and a stored row at latitude 0 is excluded. -/
theorem proximity_zero_treated_as_missing_witness :
    getAuctionsByProximity (fun _ => GeoOutcome.found 0 5) (fun _ _ _ _ => 0)
      [exampleRow 5] "78232" 100 20 0 = ([], false) ∧
    (exampleRow 0, (⊤ : WithTop ℚ)) ∉
      proximityPipeline (fun _ _ la _ => la) 0 0 100 20 0 [exampleRow 0] :=
  ⟨proximity_zero_treated_as_missing.1 _ _ _ _ _ _ _ 0 5 rfl (Or.inl rfl),
    proximity_zero_treated_as_missing.2 _ _ _ _ _ _ _ _ _ (Or.inl rfl)⟩

/-! ## Ingestion lemmas: generic helpers -/

theorem exceptPure_ok {α : Type} (a : α) : (pure a : Except PyErr α) = .ok a := rfl

theorem exceptBind_ok {α β : Type} (a : α) (f : α → Except PyErr β) :
    ((Except.ok a : Except PyErr α) >>= f) = f a := rfl

theorem exceptBind_error {α β : Type} (e : PyErr) (f : α → Except PyErr β) :
    ((Except.error e : Except PyErr α) >>= f) = .error e := rfl

theorem find?_append_isSome {α : Type} (p : α → Bool) (l t : List α)
    (h : (l.find? p).isSome = true) : ((l ++ t).find? p).isSome = true := by
  rw [List.find?_isSome] at h ⊢
  obtain ⟨x, hx, hpx⟩ := h
  exact ⟨x, List.mem_append_left t hx, hpx⟩

theorem find?_append_right_isSome {α : Type} (p : α → Bool) (l : List α) (x : α)
    (h : p x = true) : ((l ++ [x]).find? p).isSome = true := by
  rw [List.find?_isSome]
  exact ⟨x, by simp, h⟩

theorem le_foldr_max (x : Nat) : ∀ ids : List Nat, x ∈ ids → x ≤ ids.foldr max 0 := by
  intro ids
  induction ids with
  | nil => intro h; cases h
  | cons a l ih =>
      intro h
      rcases List.mem_cons.mp h with rfl | h
      · exact le_max_left _ _
      · exact le_trans (ih h) (le_max_right _ _)

/-- A fresh id is new. -/
theorem freshId_not_mem (ids : List Nat) : freshId ids ∉ ids := by
  intro h
  have := le_foldr_max (freshId ids) ids h
  unfold freshId at this
  omega

/-- The geocoding step never changes the record's city. -/
theorem geocodedLoc_city (g : Geocoder) (loc0 : LocationIn) :
    (geocodedLoc g loc0).city = loc0.city := by
  unfold geocodedLoc
  split
  · dsimp only
    split <;> rfl
  · rfl

/-- The geocoding step never changes the record's state. -/
theorem geocodedLoc_state (g : Geocoder) (loc0 : LocationIn) :
    (geocodedLoc g loc0).state = loc0.state := by
  unfold geocodedLoc
  split
  · dsimp only
    split <;> rfl
  · rfl

/-- The geocoding step never changes the record's ZIP. -/
theorem geocodedLoc_zip (g : Geocoder) (loc0 : LocationIn) :
    (geocodedLoc g loc0).zipCode = loc0.zipCode := by
  unfold geocodedLoc
  split
  · dsimp only
    split <;> rfl
  · rfl

/-- Explicit form of the location block when a location is supplied. -/
theorem resolveLocation_some (g : Geocoder) (db : DB) (loc0 : LocationIn)
    (a : AuctionIn) (ha : a.location = some loc0) :
    resolveLocation g db a =
      match findLocation db (loc0.city.getD "") (loc0.state.getD "TX")
          (loc0.zipCode.getD "") with
      | some r => (db, some r.locationId)
      | none =>
          ({ db with locations := db.locations ++ [{
              locationId := freshId (db.locations.map (·.locationId)),
              address := (geocodedLoc g loc0).address.getD "",
              city := loc0.city.getD "",
              state := loc0.state.getD "TX",
              zipCode := loc0.zipCode.getD "",
              latitude := (geocodedLoc g loc0).latitude,
              longitude := (geocodedLoc g loc0).longitude }] },
            some (freshId (db.locations.map (·.locationId)))) := by
  simp only [resolveLocation, ha, geocodedLoc_city, geocodedLoc_state, geocodedLoc_zip]

/-- What the location block does to the store: only `locations` can
grow; afterwards the record's lookup key is present; existing lookup
keys stay present; a pre-resolved key leaves the store untouched. -/
theorem resolveLocation_spec (g : Geocoder) (db : DB) (a : AuctionIn) :
    (resolveLocation g db a).1.sources = db.sources ∧
    (resolveLocation g db a).1.categories = db.categories ∧
    (resolveLocation g db a).1.auctions = db.auctions ∧
    (∃ t, (resolveLocation g db a).1.locations = db.locations ++ t) ∧
    locPresent (resolveLocation g db a).1 a ∧
    (∀ c st z, (findLocation db c st z).isSome = true →
      (findLocation (resolveLocation g db a).1 c st z).isSome = true) ∧
    (locPresent db a → (resolveLocation g db a).1 = db) := by
  cases ha : a.location with
  | none =>
      have hr : resolveLocation g db a = (db, none) := by
        simp [resolveLocation, ha]
      rw [hr]
      refine ⟨rfl, rfl, rfl, ⟨[], by simp⟩, ?_, fun c st z h => h, fun _ => rfl⟩
      intro k hk
      simp [AuctionIn.locKey, ha] at hk
  | some loc0 =>
      have hkey : a.locKey =
          some (loc0.city.getD "", loc0.state.getD "TX", loc0.zipCode.getD "") := by
        simp [AuctionIn.locKey, ha]
      rw [resolveLocation_some g db loc0 a ha]
      cases hfl : findLocation db (loc0.city.getD "") (loc0.state.getD "TX")
          (loc0.zipCode.getD "") with
      | some r =>
          refine ⟨rfl, rfl, rfl, ⟨[], by simp⟩, ?_, fun c st z h => h, fun _ => rfl⟩
          intro k hk
          rw [hkey] at hk
          cases hk
          simp [hfl]
      | none =>
          refine ⟨rfl, rfl, rfl, ⟨_, rfl⟩, ?_, ?_, ?_⟩
          · intro k hk
            rw [hkey] at hk
            cases hk
            unfold findLocation
            exact find?_append_right_isSome _ _ _ (by simp)
          · intro c st z h
            unfold findLocation at h ⊢
            exact find?_append_isSome _ _ _ h
          · intro hp
            have := hp _ hkey
            rw [hfl] at this
            simp at this

/-- Lookups only read their own table. -/
theorem findSource_congr {db db' : DB} (h : db'.sources = db.sources) (nm : String) :
    findSource db' nm = findSource db nm := by
  unfold findSource
  rw [h]

theorem findCategory_congr {db db' : DB} (h : db'.categories = db.categories) (nm : String) :
    findCategory db' nm = findCategory db nm := by
  unfold findCategory
  rw [h]

theorem findLocation_congr {db db' : DB} (h : db'.locations = db.locations)
    (c st z : String) : findLocation db' c st z = findLocation db c st z := by
  unfold findLocation
  rw [h]

theorem findAuction_congr {db db' : DB} (h : db'.auctions = db.auctions)
    (s : Nat) (e : String) : findAuction db' s e = findAuction db s e := by
  unfold findAuction
  rw [h]

/-- The image loop succeeds on records with `url` keys and only appends
to the `auction_images` table. -/
theorem appendImages_ok (aid : Nat) : ∀ (imgs : List ImageIn) (db : DB),
    (∀ img ∈ imgs, img.url ≠ none) →
    ∃ db2, appendImages aid db imgs = .ok db2 ∧
      db2.sources = db.sources ∧ db2.categories = db.categories ∧
      db2.locations = db.locations ∧ db2.auctions = db.auctions := by
  intro imgs
  induction imgs with
  | nil => exact fun db _ => ⟨db, rfl, rfl, rfl, rfl, rfl⟩
  | cons img rest ih =>
      intro db h
      obtain ⟨u, hu⟩ := Option.ne_none_iff_exists'.mp (h img (by simp))
      obtain ⟨db2, h2, hs, hc, hl, ha⟩ :=
        ih { db with images := db.images ++ [⟨aid, u, img.isPrimary.getD false⟩] }
          (fun i hi => h i (by simp [hi]))
      exact ⟨db2, by simp [appendImages, hu, getItem, exceptBind_ok, h2], hs, hc, hl, ha⟩

/-- The image/detail tail succeeds on well-formed records and leaves the
four natural-key tables untouched. -/
theorem appendImagesDetails_ok (aid : Nat) (db : DB) (a : AuctionIn)
    (h : ∀ img ∈ a.images.getD [], img.url ≠ none) :
    ∃ db2, appendImagesDetails aid db a = .ok db2 ∧
      db2.sources = db.sources ∧ db2.categories = db.categories ∧
      db2.locations = db.locations ∧ db2.auctions = db.auctions := by
  have hAD : ∀ d : DB, (applyDetails aid d a).sources = d.sources ∧
      (applyDetails aid d a).categories = d.categories ∧
      (applyDetails aid d a).locations = d.locations ∧
      (applyDetails aid d a).auctions = d.auctions := by
    intro d
    cases hd : a.details <;> simp [applyDetails, appendDetails, hd]
  cases hi : a.images with
  | none =>
      obtain ⟨q1, q2, q3, q4⟩ := hAD db
      exact ⟨applyDetails aid db a,
        by simp only [appendImagesDetails, hi]; rfl, q1, q2, q3, q4⟩
  | some imgs =>
      obtain ⟨db1, h1, e1, e2, e3, e4⟩ :=
        appendImages_ok aid imgs db (by simpa [hi] using h)
      obtain ⟨q1, q2, q3, q4⟩ := hAD db1
      exact ⟨applyDetails aid db1 a,
        by simp [appendImagesDetails, hi, h1, exceptBind_ok],
        q1.trans e1, q2.trans e2, q3.trans e3, q4.trans e4⟩

/-- The UPDATE branch rewrites rows in place without changing the
sequence of auction ids. -/
theorem applyUpdate_auctionIds (db : DB) (rowId : Nat) (upd : AuctionRow)
    (haid : upd.auctionId = rowId) :
    (applyUpdate db rowId upd).auctions.map (·.auctionId) =
      db.auctions.map (·.auctionId) := by
  unfold applyUpdate
  rw [List.map_map]
  apply List.map_congr_left
  intro r _
  by_cases h : r.auctionId = rowId <;> simp [h, haid]

/-- With unique auction ids, an UPDATE keeps every natural key present:
only the found row's id is rewritten, and the rewritten row keeps the
found row's key. -/
theorem findAuction_update_isSome (db : DB) (row upd : AuctionRow)
    (hids : DB.auctionIdsNodup db) (hrow : row ∈ db.auctions)
    (hsid : upd.sourceId = row.sourceId) (heid : upd.externalId = row.externalId)
    (s : Nat) (e : String) (h : (findAuction db s e).isSome = true) :
    (findAuction (applyUpdate db row.auctionId upd) s e).isSome = true := by
  unfold findAuction at h ⊢
  unfold applyUpdate
  rw [List.find?_isSome] at h ⊢
  obtain ⟨x, hx, hpx⟩ := h
  by_cases hxeq : x.auctionId = row.auctionId
  · have hxrow : x = row := List.inj_on_of_nodup_map hids hx hrow hxeq
    subst hxrow
    refine ⟨upd, List.mem_map.mpr ⟨x, hx, by simp⟩, ?_⟩
    simpa [hsid, heid] using hpx
  · exact ⟨x, List.mem_map.mpr ⟨x, hx, by simp [hxeq]⟩, hpx⟩

/-- What one auction iteration does to the store, on a well-formed
record over a store with unique auction ids: the step succeeds; only
`locations` and `auctions` can grow (by at most the insert); afterwards
the record's own natural keys are present; presence of any natural key
is preserved; a record whose auction key was already present updates in
place and contributes 0 to `imported_count`. -/
theorem processAuction_ok (g : Geocoder) (db : DB) (a : AuctionIn)
    (hwf : a.wf) (hids : DB.auctionIdsNodup db) :
    ∃ db' k, processAuction g db a = .ok (db', k) ∧
      db'.sources = db.sources ∧
      db'.categories = db.categories ∧
      (∃ t, db'.locations = db.locations ++ t) ∧
      db'.auctions.length = db.auctions.length + k ∧
      DB.auctionIdsNodup db' ∧
      locPresent db' a ∧
      aucPresent db' a ∧
      (∀ s e, (findAuction db s e).isSome = true →
        (findAuction db' s e).isSome = true) ∧
      (∀ c st z, (findLocation db c st z).isSome = true →
        (findLocation db' c st z).isSome = true) ∧
      (aucPresent db a → k = 0) ∧
      (locPresent db a → db'.locations = db.locations) ∧
      (k = 0 ∨ k = 1) := by
  obtain ⟨⟨hsid0, httl0, hed0, hurl0⟩, himgs⟩ := hwf
  obtain ⟨sid, hsid⟩ := Option.ne_none_iff_exists'.mp hsid0
  obtain ⟨ttl, httl⟩ := Option.ne_none_iff_exists'.mp httl0
  obtain ⟨ed, hed⟩ := Option.ne_none_iff_exists'.mp hed0
  obtain ⟨u, hurl⟩ := Option.ne_none_iff_exists'.mp hurl0
  obtain ⟨hRs, hRc, hRa, ⟨t0, hRl⟩, hRlp, hRlpres, hRid⟩ := resolveLocation_spec g db a
  set db1 := (resolveLocation g db a).1 with hdb1
  set lid := (resolveLocation g db a).2 with hlid
  have hids1 : DB.auctionIdsNodup db1 := by
    unfold DB.auctionIdsNodup at hids ⊢
    rw [hRa]
    exact hids
  cases hfa : findAuction db1 sid (a.externalId.getD "") with
  | some row =>
      set upd := updatedAuctionRow a ttl ed u lid row with hupd
      set db2 := applyUpdate db1 row.auctionId upd with hdb2
      obtain ⟨db3, hApp, e1, e2, e3, e4⟩ := appendImagesDetails_ok row.auctionId db2 a himgs
      have hrow : row ∈ db1.auctions := List.mem_of_find?_eq_some hfa
      have hprow := List.find?_some hfa
      have hProc : processAuction g db a = .ok (db3, 0) := by
        simp only [processAuction, hsid, httl, hed, hurl, getItem, exceptBind_ok]
        rw [← hdb1, ← hlid, hfa]
        simp only [← hupd, ← hdb2, hApp, exceptBind_ok]
        rfl
      have hloc23 : db3.locations = db1.locations := e3
      have hauc21 : db2.auctions.length = db1.auctions.length := by
        simp [hdb2, applyUpdate]
      refine ⟨db3, 0, hProc, e1.trans hRs, e2.trans hRc, ⟨t0, hloc23.trans hRl⟩, ?_, ?_,
        ?_, ?_, ?_, ?_, fun _ => rfl, ?_, Or.inl rfl⟩
      · rw [e4, hauc21, hRa, Nat.add_zero]
      · unfold DB.auctionIdsNodup
        rw [e4, hdb2, applyUpdate_auctionIds db1 row.auctionId upd rfl, hRa]
        exact hids
      · intro k hk
        rw [findLocation_congr (hloc23 : db3.locations = db1.locations)]
        exact hRlp k hk
      · intro sid2 hsid2
        rw [hsid] at hsid2
        cases hsid2
        rw [findAuction_congr e4, hdb2]
        unfold findAuction applyUpdate
        rw [List.find?_isSome]
        have hps : row.sourceId = sid ∧ row.externalId = a.externalId.getD "" := by
          simpa [Bool.and_eq_true, beq_iff_eq] using hprow
        refine ⟨upd, List.mem_map.mpr ⟨row, hrow, by simp⟩, ?_⟩
        simp only [Bool.and_eq_true, beq_iff_eq]
        exact ⟨hps.1, hps.2⟩
      · intro s e h
        rw [findAuction_congr e4, hdb2]
        exact findAuction_update_isSome db1 row upd hids1 hrow rfl rfl s e
          (by rw [findAuction_congr hRa]; exact h)
      · intro c st z h
        rw [findLocation_congr (hloc23 : db3.locations = db1.locations)]
        exact hRlpres c st z h
      · intro hp
        exact hloc23.trans (congrArg DB.locations (hRid hp))
  | none =>
      set aid := freshId (db1.auctions.map (·.auctionId)) with haid
      set nrow := newAuctionRow a aid sid (a.externalId.getD "") ttl ed u lid with hnrow
      set db2 := applyInsert db1 nrow with hdb2
      obtain ⟨db3, hApp, e1, e2, e3, e4⟩ := appendImagesDetails_ok aid db2 a himgs
      have hProc : processAuction g db a = .ok (db3, 1) := by
        simp only [processAuction, hsid, httl, hed, hurl, getItem, exceptBind_ok]
        rw [← hdb1, ← hlid, hfa]
        simp only [← haid, ← hnrow, ← hdb2, hApp, exceptBind_ok]
        rfl
      have hloc23 : db3.locations = db1.locations := e3
      have hauc2 : db2.auctions = db1.auctions ++ [nrow] := rfl
      refine ⟨db3, 1, hProc, e1.trans hRs, e2.trans hRc, ⟨t0, hloc23.trans hRl⟩, ?_, ?_,
        ?_, ?_, ?_, ?_, ?_, ?_, Or.inr rfl⟩
      · rw [e4, hauc2, List.length_append, hRa]
        rfl
      · unfold DB.auctionIdsNodup
        rw [e4, hauc2, List.map_append, List.nodup_append]
        refine ⟨hids1, by simp, ?_⟩
        intro x hx hmem
        simp only [List.map_cons, List.map_nil, List.mem_singleton] at hmem
        subst hmem
        exact freshId_not_mem _ hx
      · intro k hk
        rw [findLocation_congr (hloc23 : db3.locations = db1.locations)]
        exact hRlp k hk
      · intro sid2 hsid2
        rw [hsid] at hsid2
        cases hsid2
        rw [findAuction_congr e4]
        unfold findAuction
        rw [hauc2]
        apply find?_append_right_isSome
        simp [hnrow, newAuctionRow]
      · intro s e h
        rw [findAuction_congr e4]
        unfold findAuction
        rw [hauc2]
        apply find?_append_isSome
        rw [← findAuction_congr (hRa : db1.auctions = db.auctions)] at h
        exact h
      · intro c st z h
        rw [findLocation_congr (hloc23 : db3.locations = db1.locations)]
        exact hRlpres c st z h
      · intro hp
        have := hp sid hsid
        rw [← findAuction_congr (hRa : db1.auctions = db.auctions), hfa] at this
        simp at this
      · intro hp
        exact hloc23.trans (congrArg DB.locations (hRid hp))

/-- What the whole auction phase does to the store: it succeeds on
well-formed records, only `locations`/`auctions` grow, `imported_count`
counts exactly the new auction rows, every processed record's keys end
up present, presence is preserved — and when every record's keys were
already present the phase inserts nothing at all. -/
theorem processAuctions_ok (g : Geocoder) :
    ∀ (as : List AuctionIn) (db : DB) (n0 : Nat),
    (∀ a ∈ as, a.wf) → DB.auctionIdsNodup db →
    ∃ db' n, processAuctions g (db, n0) as = .ok (db', n0 + n) ∧
      db'.sources = db.sources ∧
      db'.categories = db.categories ∧
      (∃ t, db'.locations = db.locations ++ t) ∧
      db'.auctions.length = db.auctions.length + n ∧
      DB.auctionIdsNodup db' ∧
      (∀ a ∈ as, locPresent db' a ∧ aucPresent db' a) ∧
      (∀ s e, (findAuction db s e).isSome = true →
        (findAuction db' s e).isSome = true) ∧
      (∀ c st z, (findLocation db c st z).isSome = true →
        (findLocation db' c st z).isSome = true) ∧
      ((∀ a ∈ as, aucPresent db a ∧ locPresent db a) →
        n = 0 ∧ db'.locations = db.locations) := by
  intro as
  induction as with
  | nil =>
      intro db n0 _ hids
      exact ⟨db, 0, rfl, rfl, rfl, ⟨[], by simp⟩, rfl, hids,
        by simp, fun s e h => h, fun c st z h => h, fun _ => ⟨rfl, rfl⟩⟩
  | cons a rest ih =>
      intro db n0 hwf hids
      obtain ⟨db1, k, hstep, s1, c1, ⟨t1, l1⟩, a1, ids1, lp1, ap1, fap1, flp1, hk0, hl0, _⟩ :=
        processAuction_ok g db a (hwf a (by simp)) hids
      obtain ⟨db2, n, hrest, s2, c2, ⟨t2, l2⟩, a2, ids2, pres2, fap2, flp2, hid2⟩ :=
        ih db1 (n0 + k) (fun x hx => hwf x (by simp [hx])) ids1
      refine ⟨db2, k + n, ?_, s2.trans s1, c2.trans c1,
        ⟨t1 ++ t2, by rw [l2, l1, List.append_assoc]⟩, ?_, ids2, ?_, ?_, ?_, ?_⟩
      · simp only [processAuctions, hstep, exceptBind_ok]
        rw [hrest, Nat.add_assoc]
      · rw [a2, a1, Nat.add_assoc]
      · intro x hx
        rcases List.mem_cons.mp hx with rfl | hx
        · exact ⟨fun kk hkk => flp2 _ _ _ (lp1 kk hkk),
            fun sid hsid => fap2 _ _ (ap1 sid hsid)⟩
        · exact pres2 x hx
      · exact fun s e h => fap2 s e (fap1 s e h)
      · exact fun c st z h => flp2 c st z (flp1 c st z h)
      · intro hall
        have hhead := hall a (by simp)
        have hk : k = 0 := hk0 hhead.1
        have hl : db1.locations = db.locations := hl0 hhead.2
        have hrest0 : ∀ x ∈ rest, aucPresent db1 x ∧ locPresent db1 x := by
          intro x hx
          obtain ⟨hax, hlx⟩ := hall x (by simp [hx])
          exact ⟨fun sid hsid => fap1 _ _ (hax sid hsid),
            fun kk hkk => flp1 _ _ _ (hlx kk hkk)⟩
        obtain ⟨hn, hloc⟩ := hid2 hrest0
        exact ⟨by rw [hk, hn], hloc.trans hl⟩

/-- One source iteration: looked up by name first; an existing name
leaves the store untouched; only `auction_sources` can grow. -/
theorem importSource_ok (db : DB) (s : SourceIn) (h : s.wf) :
    ∃ db', importSource db s = .ok db' ∧
      db'.categories = db.categories ∧ db'.locations = db.locations ∧
      db'.auctions = db.auctions ∧
      sourcePresent db' s ∧
      (∀ nm, (findSource db nm).isSome = true → (findSource db' nm).isSome = true) ∧
      (sourcePresent db s → db' = db) := by
  obtain ⟨hn, hw⟩ := h
  obtain ⟨nm, hnm⟩ := Option.ne_none_iff_exists'.mp hn
  obtain ⟨wu, hwu⟩ := Option.ne_none_iff_exists'.mp hw
  cases hfs : findSource db nm with
  | some r =>
      have hres : importSource db s = .ok db := by
        simp [importSource, hnm, getItem, exceptBind_ok, hfs, exceptPure_ok]
      refine ⟨db, hres, rfl, rfl, rfl, ?_, fun nm2 h2 => h2, fun _ => rfl⟩
      intro nm2 hnm2
      rw [hnm] at hnm2
      cases hnm2
      simp [hfs]
  | none =>
      have hres : importSource db s = .ok { db with sources := db.sources ++
          [{ sourceId := freshId (db.sources.map (·.sourceId)), name := nm,
             websiteUrl := wu, description := s.description.getD "",
             logoUrl := s.logoUrl.getD "",
             isGovernment := s.isGovernment.getD false }] } := by
        simp [importSource, hnm, hwu, getItem, exceptBind_ok, hfs, exceptPure_ok]
      refine ⟨_, hres, rfl, rfl, rfl, ?_, ?_, ?_⟩
      · intro nm2 hnm2
        rw [hnm] at hnm2
        cases hnm2
        unfold findSource
        apply find?_append_right_isSome
        simp
      · intro nm2 h2
        unfold findSource at h2 ⊢
        exact find?_append_isSome _ _ _ h2
      · intro hp
        have := hp nm hnm
        rw [hfs] at this
        simp at this

/-- One category iteration, shaped like the source iteration. -/
theorem importCategory_ok (db : DB) (c : CategoryIn) (h : c.wf) :
    ∃ db', importCategory db c = .ok db' ∧
      db'.sources = db.sources ∧ db'.locations = db.locations ∧
      db'.auctions = db.auctions ∧
      categoryPresent db' c ∧
      (∀ nm, (findCategory db nm).isSome = true → (findCategory db' nm).isSome = true) ∧
      (categoryPresent db c → db' = db) := by
  obtain ⟨nm, hnm⟩ := Option.ne_none_iff_exists'.mp h
  cases hfs : findCategory db nm with
  | some r =>
      have hres : importCategory db c = .ok db := by
        simp [importCategory, hnm, getItem, exceptBind_ok, hfs, exceptPure_ok]
      refine ⟨db, hres, rfl, rfl, rfl, ?_, fun nm2 h2 => h2, fun _ => rfl⟩
      intro nm2 hnm2
      rw [hnm] at hnm2
      cases hnm2
      simp [hfs]
  | none =>
      have hres : importCategory db c = .ok { db with categories := db.categories ++
          [{ categoryId := freshId (db.categories.map (·.categoryId)), name := nm,
             description := c.description.getD "",
             parentCategoryId := c.parentCategoryId }] } := by
        simp [importCategory, hnm, getItem, exceptBind_ok, hfs, exceptPure_ok]
      refine ⟨_, hres, rfl, rfl, rfl, ?_, ?_, ?_⟩
      · intro nm2 hnm2
        rw [hnm] at hnm2
        cases hnm2
        unfold findCategory
        apply find?_append_right_isSome
        simp
      · intro nm2 h2
        unfold findCategory at h2 ⊢
        exact find?_append_isSome _ _ _ h2
      · intro hp
        have := hp nm hnm
        rw [hfs] at this
        simp at this

/-- The whole source phase: on a well-formed list it succeeds, touches
only `auction_sources`, ends with every listed name present, and is the
identity on a store that already has every listed name. -/
theorem foldSources_ok : ∀ (ss : List SourceIn) (db : DB),
    (∀ s ∈ ss, s.wf) →
    ∃ db', foldE importSource db ss = .ok db' ∧
      db'.categories = db.categories ∧ db'.locations = db.locations ∧
      db'.auctions = db.auctions ∧
      (∀ s ∈ ss, sourcePresent db' s) ∧
      (∀ nm, (findSource db nm).isSome = true → (findSource db' nm).isSome = true) ∧
      ((∀ s ∈ ss, sourcePresent db s) → db' = db) := by
  intro ss
  induction ss with
  | nil =>
      intro db _
      exact ⟨db, rfl, rfl, rfl, rfl, by simp, fun nm h => h, fun _ => rfl⟩
  | cons s rest ih =>
      intro db h
      obtain ⟨db1, h1, c1, l1, a1, p1, f1, id1⟩ := importSource_ok db s (h s (by simp))
      obtain ⟨db2, h2, c2, l2, a2, p2, f2, id2⟩ := ih db1 (fun x hx => h x (by simp [hx]))
      refine ⟨db2, ?_, c2.trans c1, l2.trans l1, a2.trans a1, ?_,
        fun nm hh => f2 nm (f1 nm hh), ?_⟩
      · simp only [foldE, h1, exceptBind_ok, h2]
      · intro x hx
        rcases List.mem_cons.mp hx with rfl | hx
        · exact fun nm hnm => f2 nm (p1 nm hnm)
        · exact p2 x hx
      · intro hall
        have e1 : db1 = db := id1 (hall s (by simp))
        have e2 : db2 = db1 := id2 (fun x hx => by rw [e1]; exact hall x (by simp [hx]))
        exact e2.trans e1

/-- The whole category phase, shaped like the source phase. -/
theorem foldCategories_ok : ∀ (cs : List CategoryIn) (db : DB),
    (∀ c ∈ cs, c.wf) →
    ∃ db', foldE importCategory db cs = .ok db' ∧
      db'.sources = db.sources ∧ db'.locations = db.locations ∧
      db'.auctions = db.auctions ∧
      (∀ c ∈ cs, categoryPresent db' c) ∧
      (∀ nm, (findCategory db nm).isSome = true → (findCategory db' nm).isSome = true) ∧
      ((∀ c ∈ cs, categoryPresent db c) → db' = db) := by
  intro cs
  induction cs with
  | nil =>
      intro db _
      exact ⟨db, rfl, rfl, rfl, rfl, by simp, fun nm h => h, fun _ => rfl⟩
  | cons c rest ih =>
      intro db h
      obtain ⟨db1, h1, s1, l1, a1, p1, f1, id1⟩ := importCategory_ok db c (h c (by simp))
      obtain ⟨db2, h2, s2, l2, a2, p2, f2, id2⟩ := ih db1 (fun x hx => h x (by simp [hx]))
      refine ⟨db2, ?_, s2.trans s1, l2.trans l1, a2.trans a1, ?_,
        fun nm hh => f2 nm (f1 nm hh), ?_⟩
      · simp only [foldE, h1, exceptBind_ok, h2]
      · intro x hx
        rcases List.mem_cons.mp hx with rfl | hx
        · exact fun nm hnm => f2 nm (p1 nm hnm)
        · exact p2 x hx
      · intro hall
        have e1 : db1 = db := id1 (hall c (by simp))
        have e2 : db2 = db1 := id2 (fun x hx => by rw [e1]; exact hall x (by simp [hx]))
        exact e2.trans e1

/-! ## Claim theorems: ingestion -/

/-- C1: on a well-formed batch over a store with unique auction ids,
`import_data` succeeds, and re-running it on the same batch succeeds
with `imported_count = 0` and leaves the Source/Category/Location/
Auction row counts exactly as after the first run — every natural key
is looked up before insertion, so the second run inserts nothing.
The second run may even see different geocoder answers. -/
theorem importData_idempotent :
    ∀ (g g2 : Geocoder) (db : DB) (b : Batch),
      b.wf → DB.auctionIdsNodup db →
      ∃ db1 n1, importData g db b = (db1, .ok n1) ∧
        ∃ db2, importData g2 db1 b = (db2, .ok 0) ∧
          db2.sources.length = db1.sources.length ∧
          db2.categories.length = db1.categories.length ∧
          db2.locations.length = db1.locations.length ∧
          db2.auctions.length = db1.auctions.length := by
  intro g g2 db b hbwf hids
  obtain ⟨hws, hwc, hwa⟩ := hbwf
  obtain ⟨dbS, hS, cS, lS, aS, pS, fS, idS⟩ := foldSources_ok b.sources db hws
  obtain ⟨dbC, hC, sC, lC, aC, pC, fC, idC⟩ := foldCategories_ok b.categories dbS hwc
  have hidsC : DB.auctionIdsNodup dbC := by
    unfold DB.auctionIdsNodup at hids ⊢
    rw [aC, aS]
    exact hids
  obtain ⟨db1, n, hA, sA, cA, ⟨tA, lA⟩, aA, idsA, presA, fapA, flpA, hA0⟩ :=
    processAuctions_ok g b.auctions dbC 0 hwa hidsC
  have hcore1 : importDataCore g db b = .ok (db1, n) := by
    simp only [importDataCore, hS, exceptBind_ok, hC, hA, Nat.zero_add]
  have hrun1 : importData g db b = (db1, .ok n) := by
    simp only [importData, hcore1]
  have pS1 : ∀ s ∈ b.sources, sourcePresent db1 s := by
    intro s hs nm hnm
    rw [findSource_congr (sA.trans sC)]
    exact pS s hs nm hnm
  have pC1 : ∀ c ∈ b.categories, categoryPresent db1 c := by
    intro c hc nm hnm
    rw [findCategory_congr cA]
    exact pC c hc nm hnm
  obtain ⟨dbS2, hS2, cS2, lS2, aS2, pS2, fS2, idS2⟩ := foldSources_ok b.sources db1 hws
  have eS2 : dbS2 = db1 := idS2 pS1
  obtain ⟨dbC2, hC2, sC2, lC2, aC2, pC2, fC2, idC2⟩ := foldCategories_ok b.categories dbS2 hwc
  have eC2 : dbC2 = dbS2 := idC2 (fun c hc => by rw [eS2]; exact pC1 c hc)
  have hidsC2 : DB.auctionIdsNodup dbC2 := by
    rw [eC2, eS2]
    exact idsA
  obtain ⟨db2, n2, hA2, sA2, cA2, ⟨tA2, lA2⟩, aA2, idsA2, presA2, fapA2, flpA2, hzero⟩ :=
    processAuctions_ok g2 b.auctions dbC2 0 hwa hidsC2
  have hpres2 : ∀ x ∈ b.auctions, aucPresent dbC2 x ∧ locPresent dbC2 x := by
    intro x hx
    rw [eC2, eS2]
    exact ⟨(presA x hx).2, (presA x hx).1⟩
  obtain ⟨hn2, hloc2⟩ := hzero hpres2
  have hcore2 : importDataCore g2 db1 b = .ok (db2, 0) := by
    simp only [importDataCore, hS2, exceptBind_ok, hC2, hA2, hn2, Nat.add_zero]
  have hrun2 : importData g2 db1 b = (db2, .ok 0) := by
    simp only [importData, hcore2]
  refine ⟨db1, n, hrun1, db2, hrun2, ?_, ?_, ?_, ?_⟩
  · rw [sA2, eC2, eS2]
  · rw [cA2, eC2, eS2]
  · rw [hloc2, eC2, eS2]
  · rw [aA2, hn2, Nat.add_zero, eC2, eS2]

/-- C1 witness: a concrete one-source, one-category, one-auction batch
into an empty store imports once and is a no-op the second time. -/
theorem importData_idempotent_witness :
    Batch.wf cBatch ∧ DB.auctionIdsNodup DB.empty ∧
    (∃ db1 n1, importData cGeo DB.empty cBatch = (db1, .ok n1) ∧
      ∃ db2, importData cGeo db1 cBatch = (db2, .ok 0) ∧
        db2.sources.length = db1.sources.length ∧
        db2.categories.length = db1.categories.length ∧
        db2.locations.length = db1.locations.length ∧
        db2.auctions.length = db1.auctions.length) := by
  have h1 : Batch.wf cBatch := by
    unfold Batch.wf SourceIn.wf CategoryIn.wf AuctionIn.wf AuctionIn.wfReq
    decide
  have h2 : DB.auctionIdsNodup DB.empty := by
    unfold DB.auctionIdsNodup
    simp [DB.empty]
  exact ⟨h1, h2, importData_idempotent cGeo cGeo DB.empty cBatch h1 h2⟩

/-- A record missing one of the four directly-read keys raises. -/
theorem processAuction_error (g : Geocoder) (db : DB) (a : AuctionIn)
    (h : ¬ a.wfReq) : ∃ e, processAuction g db a = .error e := by
  by_cases h1 : a.sourceId = none
  · exact ⟨.keyError "source_id",
      by simp [processAuction, h1, getItem, exceptBind_error]⟩
  · obtain ⟨sid, hsid⟩ := Option.ne_none_iff_exists'.mp h1
    by_cases h2 : a.title = none
    · exact ⟨.keyError "title",
        by simp [processAuction, hsid, h2, getItem, exceptBind_ok, exceptBind_error]⟩
    · obtain ⟨ttl, httl⟩ := Option.ne_none_iff_exists'.mp h2
      by_cases h3 : a.endDate = none
      · exact ⟨.keyError "end_date",
          by simp [processAuction, hsid, httl, h3, getItem, exceptBind_ok,
            exceptBind_error]⟩
      · obtain ⟨ed, hed⟩ := Option.ne_none_iff_exists'.mp h3
        by_cases h4 : a.url = none
        · exact ⟨.keyError "url",
            by simp [processAuction, hsid, httl, hed, h4, getItem, exceptBind_ok,
              exceptBind_error]⟩
        · exact absurd ⟨h1, h2, h3, h4⟩ h

/-- A batch containing a bad record makes the whole auction loop raise:
there is no per-record handler. -/
theorem processAuctions_error (g : Geocoder) :
    ∀ (as : List AuctionIn) (db : DB) (n0 : Nat),
      (∃ a ∈ as, ¬ a.wfReq) →
      ∃ e, processAuctions g (db, n0) as = .error e := by
  intro as
  induction as with
  | nil =>
      rintro db n0 ⟨a, ha, _⟩
      simp at ha
  | cons a rest ih =>
      rintro db n0 ⟨x, hx, hbad⟩
      rcases List.mem_cons.mp hx with rfl | hxr
      · obtain ⟨e, he⟩ := processAuction_error g db x hbad
        exact ⟨e, by simp [processAuctions, he, exceptBind_error]⟩
      · cases hpa : processAuction g db a with
        | error e => exact ⟨e, by simp [processAuctions, hpa, exceptBind_error]⟩
        | ok st =>
            obtain ⟨db1, k⟩ := st
            obtain ⟨e, he⟩ := ih db1 (n0 + k) ⟨x, hxr, hbad⟩
            exact ⟨e, by simp [processAuctions, hpa, exceptBind_ok, he]⟩

/-- C2 counterexample: on a three-record batch whose middle record has
no title, `import_data` raises a KeyError and the rolled-back store
ends with zero auctions — not with the other two records ingested and
the bad one skipped. -/
theorem importData_partial_failure_counterexample :
    (importData cGeo DB.empty cBadBatch).2 = .error (.keyError "title") ∧
    (importData cGeo DB.empty cBadBatch).1 = DB.empty ∧
    (importData cGeo DB.empty cBadBatch).1.auctions.length = 0 :=
  ⟨rfl, rfl, rfl⟩

/-- C2 amended: an exception while processing a record of a batch is not
caught per record: as soon as any record lacks a required key, the
whole import raises and the transaction is never committed; the store is
unchanged and zero records are ingested — even when the remaining
records are well-formed. -/
theorem importData_aborts_on_bad_record :
    ∀ (g : Geocoder) (db : DB) (b : Batch),
      (∀ s ∈ b.sources, s.wf) → (∀ c ∈ b.categories, c.wf) →
      (∃ a ∈ b.auctions, ¬ a.wfReq) →
      ∃ e, importData g db b = (db, .error e) := by
  intro g db b hws hwc hbad
  obtain ⟨dbS, hS, -, -, -, -, -, -⟩ := foldSources_ok b.sources db hws
  obtain ⟨dbC, hC, -, -, -, -, -, -⟩ := foldCategories_ok b.categories dbS hwc
  obtain ⟨e, hE⟩ := processAuctions_error g b.auctions dbC 0 ⟨hbad.choose, hbad.choose_spec.1, hbad.choose_spec.2⟩
  refine ⟨e, ?_⟩
  have hcore : importDataCore g db b = .error e := by
    simp only [importDataCore, hS, exceptBind_ok, hC, hE]
  simp only [importData, hcore]

/-- C2 amended witness: the concrete bad batch aborts with the store
unchanged. -/
theorem importData_aborts_on_bad_record_witness :
    ∃ e, importData cGeo DB.empty cBadBatch = (DB.empty, .error e) :=
  importData_aborts_on_bad_record cGeo DB.empty cBadBatch
    (by intro s hs; simp [cBadBatch] at hs)
    (by intro c hc; simp [cBadBatch] at hc)
    ⟨cAuctionBad, by simp [cBadBatch], fun hwf => hwf.2.1 rfl⟩

/-- C3 counterexample: two records with no `external_id`, different
titles and different urls, from the same source, collapse into a single
auction row (last write wins) — they are not deduplicated by
(title, url). -/
theorem dedup_fallback_counterexample :
    (importData cGeo DB.empty cPairBatch).2 = .ok 1 ∧
    (importData cGeo DB.empty cPairBatch).1.auctions.length = 1 ∧
    (importData cGeo DB.empty cPairBatch).1.auctions.map (·.title) = ["Estate lot B"] ∧
    cNoExtA.title ≠ cNoExtB.title ∧ cNoExtA.url ≠ cNoExtB.url :=
  ⟨rfl, rfl, rfl, by decide, by decide⟩

/-- C3 amended: a record without `external_id` is deduplicated by the
key `(source_id, "")` — the empty string stands in for the missing
external id — so repeated ingestion of external-id-less records from
one source never grows the auction table beyond one extra row, and
inserts nothing at all when the `(source_id, "")` key already exists;
distinct external-id-less records from the same source collapse. -/
theorem dedup_missing_externalId :
    ∀ (g : Geocoder) (db : DB) (x y : AuctionIn) (sid : Nat),
      x.wf → y.wf → DB.auctionIdsNodup db →
      x.sourceId = some sid → y.sourceId = some sid →
      x.externalId = none → y.externalId = none →
      ∃ db' n,
        importData g db { sources := [], categories := [], auctions := [x, y] } =
          (db', .ok n) ∧
        n ≤ 1 ∧
        db'.auctions.length ≤ db.auctions.length + 1 ∧
        ((findAuction db sid "").isSome = true →
          n = 0 ∧ db'.auctions.length = db.auctions.length) := by
  intro g db x y sid hwx hwy hids hsx hsy hex hey
  obtain ⟨db1, k1, h1, s1, c1, ⟨t1, l1⟩, a1, ids1, lp1, ap1, fap1, flp1, hk1, -, hk1b⟩ :=
    processAuction_ok g db x hwx hids
  have hpres1 : (findAuction db1 sid "").isSome = true := by
    simpa [hex] using ap1 sid hsx
  obtain ⟨db2, k2, h2, s2, c2, ⟨t2, l2⟩, a2, ids2, lp2, ap2, fap2, flp2, hk2, -, hk2b⟩ :=
    processAuction_ok g db1 y hwy ids1
  have hk2z : k2 = 0 := by
    apply hk2
    intro sid2 hsid2
    rw [hsy] at hsid2
    cases hsid2
    simpa [hey] using hpres1
  have hA : processAuctions g (db, 0) [x, y] = .ok (db2, 0 + k1 + k2) := by
    simp only [processAuctions, h1, exceptBind_ok, h2, exceptPure_ok]
  have hcore : importDataCore g db { sources := [], categories := [], auctions := [x, y] } =
      .ok (db2, k1 + k2) := by
    simp only [importDataCore, foldE, exceptPure_ok, exceptBind_ok, hA, Nat.zero_add]
  refine ⟨db2, k1 + k2, by simp only [importData, hcore], ?_, ?_, ?_⟩
  · rcases hk1b with rfl | rfl <;> omega
  · rw [a2, a1]
    rcases hk1b with rfl | rfl <;> omega
  · intro hkey
    have hk1z : k1 = 0 := by
      apply hk1
      intro sid2 hsid2
      rw [hsx] at hsid2
      cases hsid2
      simpa [hex] using hkey
    exact ⟨by omega, by omega⟩

/-- C3 amended witness: the concrete external-id-less pair into an empty
store inserts at most one row. -/
theorem dedup_missing_externalId_witness :
    ∃ db' n,
      importData cGeo DB.empty
          { sources := [], categories := [], auctions := [cNoExtA, cNoExtB] } =
        (db', .ok n) ∧
      n ≤ 1 ∧
      db'.auctions.length ≤ DB.empty.auctions.length + 1 ∧
      ((findAuction DB.empty 1 "").isSome = true →
        n = 0 ∧ db'.auctions.length = DB.empty.auctions.length) := by
  apply dedup_missing_externalId cGeo DB.empty cNoExtA cNoExtB 1
  · unfold AuctionIn.wf AuctionIn.wfReq
    decide
  · unfold AuctionIn.wf AuctionIn.wfReq
    decide
  · unfold DB.auctionIdsNodup
    simp [DB.empty]
  · rfl
  · rfl
  · rfl
  · rfl

end TexasAuction
